import Mathlib

/-!
Verification development for the Let-It-Count calorie-tracking app.

Shallow embedding of the computational core:
* `calculateCalories`  — src/utils/calorieUtils.ts
* `processEntries`     — src/app/history.tsx (DayAggregator)
* `getGoalProgressColor` — src/app/index.tsx (ProgressClassifier)
* profile goal state machine — src/app/profile/edit.tsx (GoalResolver)

JavaScript numbers are modelled as rationals (ℚ); `Math.round x` is
modelled as `⌊x + 1/2⌋` (round half toward +∞), which is what
ECMAScript `Math.round` computes.  Timestamps are integer milliseconds.
-/

namespace LetItCount

/-- Embedding of ECMAScript `Math.round`: floor(x + 0.5). -/
def jsRound (q : ℚ) : ℤ := ⌊q + 1/2⌋

/-- Entry record, from src/types/index.ts.  Numeric fields are rationals
(JS numbers); `createdAt` is Unix milliseconds. -/
structure Entry where
  id : ℤ
  name : String
  amount_in_g : ℚ
  calories_per_100_g : ℚ
  protein_per_100_g : ℚ
  carbs_per_100_g : ℚ
  fat_per_100_g : ℚ
  saturated_fat_per_100_g : ℚ
  sugars_per_100_g : ℚ
  salt_per_100_g : ℚ
  createdAt : ℤ
deriving DecidableEq

/-- Embedding of `calculateCalories` (src/utils/calorieUtils.ts, lines 8-23).
The typed embedding makes the `typeof ... !== number` guard vacuous; the
remaining guard and the formula are translated verbatim:
if `calories_per_100_g <= 0 || amount_in_g < 0` return 0, else
`Math.round((amount_in_g / 100.0) * calories_per_100_g)`. -/
def calculateCalories (item : Entry) : ℤ :=
  if item.calories_per_100_g ≤ 0 ∨ item.amount_in_g < 0 then 0
  else jsRound (item.amount_in_g / 100 * item.calories_per_100_g)

/-- Result bands of `getGoalProgressColor` (src/app/index.tsx, lines 38-60),
abstracting the returned colors: `colors.text` (neutral), success, warning,
danger. -/
inductive Band where
  | neutral
  | success
  | warning
  | danger
deriving DecidableEq

/-- Embedding of `getGoalProgressColor` (src/app/index.tsx, lines 38-60),
with the returned color abstracted to its band. -/
def getGoalProgressColor (current target : ℚ) : Band :=
  if target ≤ 0 then Band.neutral
  else
    let percentage := current / target * 100
    if percentage < 90 then Band.success
    else if percentage ≤ 110 then Band.warning
    else Band.danger

/-! ## GoalResolver: the profile edit screen state machine

Embedding of src/app/profile/edit.tsx.  The React component state is
`ProfileState`; the two AsyncStorage keys the claims are about
(`profileActiveGoalType`, `profileCalculatedGoal`) form `Store`
(the remaining keys mirror `ProfileState` fields one-to-one and play no
role in the claims).  Text inputs are modelled by their parse results:
the screen filters age/height to digit strings and weight to a decimal
string, so `parseInt`/`parseFloat` yield a number or NaN (empty field);
`none` stands for NaN / the empty ('' falsy) picker value. -/

inductive ProfileMode where
  | simple
  | advanced
deriving DecidableEq

inductive Sex where
  | male
  | female
deriving DecidableEq

inductive ActivityLevel where
  | sedentary
  | light
  | moderate
  | very
deriving DecidableEq

/-- Parsed advanced-mode inputs as the recompute effect sees them
(edit.tsx lines 122-126). -/
structure Biometrics where
  age : Option ℤ
  sex : Option Sex
  height : Option ℤ
  weight : Option ℚ
  activityLevel : Option ActivityLevel
deriving DecidableEq

/-- React component state of ProfileEditScreen (edit.tsx lines 40-48). -/
structure ProfileState where
  mode : ProfileMode
  bio : Biometrics
  weightGoalValue : ℚ
  manualGoal : String
deriving DecidableEq

/-- Persisted state: the two AsyncStorage keys the claims concern.
`none` means the key is absent (removed or never written). -/
structure Store where
  activeGoalType : Option String
  calculatedGoal : Option ℤ
deriving DecidableEq

/-- BMR formula of the recompute effect (edit.tsx lines 127-130),
sex-selected exactly as the source ternary. -/
def bmr : Sex → ℚ → ℤ → ℤ → ℚ
  | Sex.male, w, h, a => 88.362 + 13.397 * w + 4.799 * (h : ℚ) - 5.677 * (a : ℚ)
  | Sex.female, w, h, a => 447.593 + 9.247 * w + 3.098 * (h : ℚ) - 4.330 * (a : ℚ)

/-- Activity factor ternary chain (edit.tsx lines 131-138); the trailing
1.2 default is reached by `sedentary` since the five-field guard already
excludes the empty value. -/
def activityFactor : ActivityLevel → ℚ
  | ActivityLevel.light => 1.375
  | ActivityLevel.moderate => 1.55
  | ActivityLevel.very => 1.725
  | ActivityLevel.sedentary => 1.2

/-- Total of the recompute effect (edit.tsx lines 139-141):
round(tdee + adj) with tdee = bmr * activityFactor and
adj = delta * 7700 / 7. -/
def advancedTotal (a : ℤ) (sx : Sex) (h : ℤ) (w : ℚ) (al : ActivityLevel)
    (delta : ℚ) : ℤ :=
  jsRound (bmr sx w h a * activityFactor al + delta * 7700 / 7)

/-- Embedding of the recompute useEffect body (edit.tsx lines 120-154):
skip unless advanced mode; with all five inputs parsed, persist the total
and goal type when total > 0, else remove only the calculated goal; with
any input missing, remove only the calculated goal. -/
def recompute (p : ProfileState) (st : Store) : Store :=
  match p.mode with
  | ProfileMode.simple => st
  | ProfileMode.advanced =>
    match p.bio.age, p.bio.sex, p.bio.height, p.bio.weight, p.bio.activityLevel with
    | some a, some sx, some h, some w, some al =>
        let total := advancedTotal a sx h w al p.weightGoalValue
        if total > 0 then
          { activeGoalType := some "calculated", calculatedGoal := some total }
        else
          { st with calculatedGoal := none }
    | _, _, _, _, _ => { st with calculatedGoal := none }

/-- User interactions of the edit screen that touch the modelled state:
mode toggle, the five advanced inputs, the weekly weight-goal picker and
the manual goal field. -/
inductive Event where
  | setMode (m : ProfileMode)
  | setAge (v : Option ℤ)
  | setSex (v : Option Sex)
  | setHeight (v : Option ℤ)
  | setWeight (v : Option ℚ)
  | setActivityLevel (v : Option ActivityLevel)
  | setWeightGoal (v : ℚ)
  | setManualGoal (s : String)

/-- Component-state update performed by each handler (edit.tsx lines
156-172 and the onChangeText handlers of the advanced inputs). -/
def applyEvent (p : ProfileState) : Event → ProfileState
  | Event.setMode m => { p with mode := m }
  | Event.setAge v => { p with bio := { p.bio with age := v } }
  | Event.setSex v => { p with bio := { p.bio with sex := v } }
  | Event.setHeight v => { p with bio := { p.bio with height := v } }
  | Event.setWeight v => { p with bio := { p.bio with weight := v } }
  | Event.setActivityLevel v => { p with bio := { p.bio with activityLevel := v } }
  | Event.setWeightGoal v => { p with weightGoalValue := v }
  | Event.setManualGoal s => { p with manualGoal := s }

/-- Ternary of onModeChange (edit.tsx line 159):
`m === 'simple' ? 'manual' : 'calculated'`. -/
def modeGoalType : ProfileMode → String
  | ProfileMode.simple => "manual"
  | ProfileMode.advanced => "calculated"

/-- Synchronous saveData writes of the handlers to the two modelled keys:
onModeChange (edit.tsx lines 156-160) writes activeGoalType from the new
mode alone; onManualGoal (lines 162-167) writes 'manual' only in simple
mode.  No other handler touches these keys. -/
def handlerStore (p : ProfileState) (st : Store) : Event → Store
  | Event.setMode m =>
      { st with activeGoalType := some (modeGoalType m) }
  | Event.setManualGoal _ =>
      match p.mode with
      | ProfileMode.simple => { st with activeGoalType := some "manual" }
      | ProfileMode.advanced => st
  | _ => st

/-- One interaction: the handler runs, React re-renders, and the
recompute effect runs whenever one of its dependencies
[mode, age, sex, height, weight, activityLevel, weightGoalValue]
changed — i.e. for every event except a manual-goal edit. -/
def step (s : ProfileState × Store) (e : Event) : ProfileState × Store :=
  let p := applyEvent s.1 e
  let st := handlerStore s.1 s.2 e
  match e with
  | Event.setManualGoal _ => (p, st)
  | _ => (p, recompute p st)

/-- Fresh-install initial state (edit.tsx lines 40-48 defaults; no
AsyncStorage keys present).  The mount-time effect run is a no-op in
simple mode. -/
def initState : ProfileState × Store :=
  ({ mode := ProfileMode.simple,
     bio := { age := none, sex := none, height := none, weight := none,
              activityLevel := none },
     weightGoalValue := 0, manualGoal := "2000" },
   { activeGoalType := none, calculatedGoal := none })

/-- Run a sequence of interactions from the fresh-install state. -/
def runEvents (es : List Event) : ProfileState × Store :=
  es.foldl step initState

/-- All five advanced inputs present and valid (the guard of
edit.tsx line 126). -/
def bioComplete (b : Biometrics) : Bool :=
  b.age.isSome && b.sex.isSome && b.height.isSome && b.weight.isSome
    && b.activityLevel.isSome

/-- Pure recomputation of the calculated goal from the current inputs:
what the effect would persist under `profileCalculatedGoal`. -/
def resolvedGoal (p : ProfileState) : Option ℤ :=
  match p.bio.age, p.bio.sex, p.bio.height, p.bio.weight, p.bio.activityLevel with
  | some a, some sx, some h, some w, some al =>
      let total := advancedTotal a sx h w al p.weightGoalValue
      if total > 0 then some total else none
  | _, _, _, _, _ => none

/-- Invariant actually maintained by the edit screen on the two
persisted keys. -/
def Inv (s : ProfileState × Store) : Prop :=
  (s.2.activeGoalType = some "calculated" ↔ s.1.mode = ProfileMode.advanced)
  ∧ (s.1.mode = ProfileMode.advanced → s.2.calculatedGoal = resolvedGoal s.1)

/-! ## DayAggregator: processEntries of the history screen

Embedding of `processEntries` (src/app/history.tsx, lines 42-62).
The JS object `grouped` is an insertion-ordered string-keyed map; it is
modelled as an association list in key-first-occurrence order.  The day
key is `new Date(createdAt).toISOString().split('T')[0]`, i.e. the UTC
calendar date of the timestamp, zero-padded `YYYY-MM-DD` (ECMAScript
expanded-year format outside years 0..9999).  `Object.keys` returns the
keys in insertion order (the keys contain a hyphen, hence are not array
indices); `.sort((a, b) => b.localeCompare(a))` sorts them descending —
modelled by code-unit lexicographic order, which localeCompare agrees
with on digit/hyphen ASCII strings — and the per-day entry lists are
sorted by the stable `.sort((a, b) => b.createdAt - a.createdAt)`. -/

/-- Proleptic-Gregorian civil date (year, month, day) of a day number
relative to 1970-01-01 (UTC), the standard civil-from-days algorithm
used to embed `Date.prototype.toISOString`. -/
def civilFromDays (z : ℤ) : ℤ × ℤ × ℤ :=
  let zd := z + 719468
  let era := Int.fdiv zd 146097
  let doe := zd - era * 146097
  let yoe := Int.fdiv (doe - Int.fdiv doe 1460 + Int.fdiv doe 36524
      - Int.fdiv doe 146096) 365
  let y := yoe + era * 400
  let doy := doe - (365 * yoe + Int.fdiv yoe 4 - Int.fdiv yoe 100)
  let mp := Int.fdiv (5 * doy + 2) 153
  let d := doy - Int.fdiv (153 * mp + 2) 5 + 1
  let m := if mp < 10 then mp + 3 else mp - 9
  (if m ≤ 2 then y + 1 else y, m, d)

/-- Left-pad a digit string with zeros to the given width. -/
def zeroPad (w : Nat) (s : String) : String :=
  String.mk (List.replicate (w - s.length) '0') ++ s

/-- Day key of a millisecond timestamp:
`new Date(ms).toISOString().split('T')[0]` — the UTC calendar date as
`YYYY-MM-DD` (signed six-digit year outside 0..9999). -/
def isoDayKey (ms : ℤ) : String :=
  let c := civilFromDays (Int.fdiv ms 86400000)
  (if c.1 < 0 then "-" ++ zeroPad 6 (Nat.repr (-c.1).toNat)
   else if c.1 ≤ 9999 then zeroPad 4 (Nat.repr c.1.toNat)
   else "+" ++ zeroPad 6 (Nat.repr c.1.toNat))
    ++ "-" ++ zeroPad 2 (Nat.repr c.2.1.toNat)
    ++ "-" ++ zeroPad 2 (Nat.repr c.2.2.toNat)

/-- The `dateString` of an entry (history.tsx lines 46-47). -/
def dateString (e : Entry) : String := isoDayKey e.createdAt

/-- One group of the insertion-ordered `grouped` object: day key, the
entries pushed so far (in input order) and their running calorie total. -/
abbrev DayGroup := String × List Entry × ℤ

/-- One iteration of the grouping loop (history.tsx lines 45-54): find
the group of key `k` (creating it at the end on first occurrence), push
the entry and add its freshly computed calories to the running total. -/
def insertEntry (gs : List DayGroup) (k : String) (e : Entry) : List DayGroup :=
  match gs with
  | [] => [(k, [e], calculateCalories e)]
  | g :: rest =>
      if g.1 = k then (g.1, g.2.1 ++ [e], g.2.2 + calculateCalories e) :: rest
      else g :: insertEntry rest k e

/-- The fully built `grouped` map after the forEach loop. -/
def buildGroups (l : List Entry) : List DayGroup :=
  l.foldl (fun gs e => insertEntry gs (dateString e) e) []

/-- Entry list stored under a key (empty when absent). -/
def lookupEntries (gs : List DayGroup) (k : String) : List Entry :=
  match gs with
  | [] => []
  | g :: rest => if g.1 = k then g.2.1 else lookupEntries rest k

/-- Calorie total stored under a key (zero when absent). -/
def lookupTotal (gs : List DayGroup) (k : String) : ℤ :=
  match gs with
  | [] => 0
  | g :: rest => if g.1 = k then g.2.2 else lookupTotal rest k

/-- DailyData record (history.tsx lines 26-30). -/
structure DailyData where
  date : String
  entries : List Entry
  totalCalories : ℤ
deriving DecidableEq

/-- Stable descending sort of a bucket's entries:
`.sort((a, b) => b.createdAt - a.createdAt)` (history.tsx line 59). -/
def sortEntriesDesc (es : List Entry) : List Entry :=
  es.mergeSort (fun a b => decide (b.createdAt ≤ a.createdAt))

/-- Descending key sort: `.sort((a, b) => b.localeCompare(a))`
(history.tsx line 56). -/
def sortKeysDesc (ks : List String) : List String :=
  ks.mergeSort (fun a b => decide (b ≤ a))

/-- Embedding of `processEntries` (history.tsx lines 42-62): empty in,
empty out; otherwise group all entries by day key, sort the keys
descending and emit one DailyData per key with its entries sorted
newest-first and its accumulated total. -/
def processEntries (allEntries : List Entry) : List DailyData :=
  match allEntries with
  | [] => []
  | _ :: _ =>
    let grouped := buildGroups allEntries
    (sortKeysDesc (grouped.map Prod.fst)).map
      (fun date =>
        { date := date,
          entries := sortEntriesDesc (lookupEntries grouped date),
          totalCalories := lookupTotal grouped date })

/-- Concrete sample entry (1970-01-01 UTC) for instantiating theorems;
calories_per_100_g = 0 keeps every derived value kernel-computable. -/
def appleEntry : Entry :=
  { id := 1, name := "apple", amount_in_g := 100, calories_per_100_g := 0,
    protein_per_100_g := 0, carbs_per_100_g := 0, fat_per_100_g := 0,
    saturated_fat_per_100_g := 0, sugars_per_100_g := 0, salt_per_100_g := 0,
    createdAt := 0 }

/-- Concrete sample entry logged at 1970-01-02T00:00:00 UTC. -/
def pearEntry : Entry :=
  { id := 2, name := "pear", amount_in_g := 50, calories_per_100_g := 0,
    protein_per_100_g := 0, carbs_per_100_g := 0, fat_per_100_g := 0,
    saturated_fat_per_100_g := 0, sugars_per_100_g := 0, salt_per_100_g := 0,
    createdAt := 86400000 }

/-- Concrete sample entry logged at 2023-11-14T22:13:20 UTC. -/
def kiwiEntry : Entry :=
  { id := 3, name := "kiwi", amount_in_g := 75, calories_per_100_g := 0,
    protein_per_100_g := 0, carbs_per_100_g := 0, fat_per_100_g := 0,
    saturated_fat_per_100_g := 0, sugars_per_100_g := 0, salt_per_100_g := 0,
    createdAt := 1700000000000 }

theorem jsRound_nearest (q : ℚ) : |(jsRound q : ℚ) - q| ≤ 1/2 := by
  unfold jsRound
  rw [abs_le]
  constructor
  · have h := Int.sub_one_lt_floor (q + 1/2)
    push_cast at h ⊢
    linarith
  · have h := Int.floor_le (q + 1/2)
    push_cast at h ⊢
    linarith

theorem jsRound_half_up (n : ℤ) : jsRound ((n : ℚ) + 1/2) = n + 1 := by
  unfold jsRound
  have : (n : ℚ) + 1/2 + 1/2 = ((n + 1 : ℤ) : ℚ) := by push_cast; ring
  rw [this, Int.floor_intCast]

/-- C4: for every entry with amount_in_g ≥ 0 and calories_per_100_g > 0,
`calculateCalories` returns `round(amount_in_g / 100 * calories_per_100_g)`,
where `round` (JS `Math.round`) maps every rational to an integer at
distance ≤ 1/2 (nearest integer) and resolves halves by one consistent
rule (always up), pinning e.g. round(92.5) = 93. -/
theorem calculateCalories_formula (e : Entry)
    (ha : 0 ≤ e.amount_in_g) (hc : 0 < e.calories_per_100_g) :
    calculateCalories e = jsRound (e.amount_in_g / 100 * e.calories_per_100_g)
    ∧ (∀ q : ℚ, |(jsRound q : ℚ) - q| ≤ 1/2)
    ∧ (∀ n : ℤ, jsRound ((n : ℚ) + 1/2) = n + 1)
    ∧ jsRound (185/2) = 93 := by
  refine ⟨?_, jsRound_nearest, jsRound_half_up, ?_⟩
  · unfold calculateCalories
    rw [if_neg]
    push_neg
    exact ⟨hc, ha⟩
  · have h : (185 : ℚ)/2 = ((92 : ℤ) : ℚ) + 1/2 := by norm_num
    rw [h, jsRound_half_up]
    norm_num

/-- Witness for C4 at amount_in_g = 250, calories_per_100_g = 37
(the spec §8 half-rounding example: 250/100 × 37 = 92.5 → 93). -/
theorem calculateCalories_formula_witness :
    calculateCalories
        { id := 1, name := "rice", amount_in_g := 250, calories_per_100_g := 37,
          protein_per_100_g := 0, carbs_per_100_g := 0, fat_per_100_g := 0,
          saturated_fat_per_100_g := 0, sugars_per_100_g := 0, salt_per_100_g := 0,
          createdAt := 0 }
      = jsRound (250 / 100 * 37) := by
  exact (calculateCalories_formula _ (by norm_num) (by norm_num)).1

/-- C5: `calculateCalories` returns 0 whenever calories_per_100_g ≤ 0
(regardless of amount_in_g) or amount_in_g < 0; being a total Lean
function it never throws, so invalid input degrades to 0. -/
theorem calculateCalories_invalid_zero (e : Entry)
    (h : e.calories_per_100_g ≤ 0 ∨ e.amount_in_g < 0) :
    calculateCalories e = 0 := by
  unfold calculateCalories
  rw [if_pos h]

/-- Witness for C5 at calories_per_100_g = 0 with a large amount. -/
theorem calculateCalories_invalid_zero_witness :
    calculateCalories
        { id := 2, name := "water", amount_in_g := 500, calories_per_100_g := 0,
          protein_per_100_g := 0, carbs_per_100_g := 0, fat_per_100_g := 0,
          saturated_fat_per_100_g := 0, sugars_per_100_g := 0, salt_per_100_g := 0,
          createdAt := 0 }
      = 0 :=
  calculateCalories_invalid_zero _ (Or.inl (by norm_num))

/-- C8: `getGoalProgressColor` returns neutral when target ≤ 0; otherwise,
with percentage = current / target * 100, it returns success when
percentage < 90, warning when 90 ≤ percentage ≤ 110, and danger when
percentage > 110.  It is a pure total function (no side effects, no other
error conditions). -/
theorem getGoalProgressColor_bands (current target : ℚ) :
    (target ≤ 0 → getGoalProgressColor current target = Band.neutral)
    ∧ (0 < target →
        (current / target * 100 < 90 →
          getGoalProgressColor current target = Band.success)
        ∧ (90 ≤ current / target * 100 → current / target * 100 ≤ 110 →
          getGoalProgressColor current target = Band.warning)
        ∧ (110 < current / target * 100 →
          getGoalProgressColor current target = Band.danger)) := by
  unfold getGoalProgressColor
  constructor
  · intro h
    rw [if_pos h]
  · intro hpos
    rw [if_neg (not_le.mpr hpos)]
    refine ⟨?_, ?_, ?_⟩
    · intro h
      simp only [if_pos h]
    · intro h1 h2
      rw [if_neg (not_lt.mpr h1), if_pos h2]
    · intro h
      rw [if_neg, if_neg (not_le.mpr h)]
      exact not_lt.mpr (by linarith)

/-- Witness for C8: classify(2300, 2000) lands in the danger band
(percentage 115 > 110). -/
theorem getGoalProgressColor_bands_witness :
    getGoalProgressColor 2300 2000 = Band.danger :=
  ((getGoalProgressColor_bands 2300 2000).2 (by norm_num)).2.2 (by norm_num)

/-- C9 counterexample: classify(1800, 2000) hits percentage exactly 90,
and the code tests `percentage < 90` for the success band, so the result
is the warning band, not the under/success band the claim states. -/
theorem classify_at_90_not_success :
    ¬ getGoalProgressColor 1800 2000 = Band.success := by
  unfold getGoalProgressColor
  norm_num
  decide

/-- C9 amended: classify(1800, 2000) (percentage exactly 90) returns the
warning band, consistent with the 90 ≤ percentage ≤ 110 warning rule. -/
theorem classify_at_90_warning :
    getGoalProgressColor 1800 2000 = Band.warning := by
  unfold getGoalProgressColor
  norm_num

theorem recompute_eq (p : ProfileState) (st : Store) :
    recompute p st =
      match p.mode, resolvedGoal p with
      | ProfileMode.simple, _ => st
      | ProfileMode.advanced, some g =>
          { activeGoalType := some "calculated", calculatedGoal := some g }
      | ProfileMode.advanced, none =>
          { activeGoalType := st.activeGoalType, calculatedGoal := none } := by
  obtain ⟨mode, ⟨oa, os, oh, ow, oal⟩, delta, mg⟩ := p
  cases mode with
  | simple => rfl
  | advanced =>
    cases oa <;> cases os <;> cases oh <;> cases ow <;> cases oal <;>
      first
        | rfl
        | (simp only [recompute, resolvedGoal]
           split_ifs <;> rfl)

theorem Inv_recompute (p : ProfileState) (st : Store)
    (hIff : st.activeGoalType = some "calculated" ↔ p.mode = ProfileMode.advanced) :
    Inv (p, recompute p st) := by
  rcases hmode : p.mode with _ | _
  · constructor
    · rw [recompute_eq]
      simp only [hmode]
      rw [hmode] at hIff
      exact hIff
    · intro hadv
      rw [hmode] at hadv
      cases hadv
  · constructor
    · rw [recompute_eq]
      simp only [hmode]
      rcases hres : resolvedGoal p with _ | g
      · simpa [hmode] using hIff
      · simp
    · intro _
      rw [recompute_eq]
      simp only [hmode]
      rcases hres : resolvedGoal p with _ | g <;> simp

theorem Inv_step (s : ProfileState × Store) (e : Event) (h : Inv s) :
    Inv (step s e) := by
  obtain ⟨p, st⟩ := s
  obtain ⟨h1, h2⟩ := h
  cases e with
  | setMode m =>
      cases m with
      | simple =>
          apply Inv_recompute
          simp [handlerStore, applyEvent, modeGoalType]
      | advanced =>
          apply Inv_recompute
          simp [handlerStore, applyEvent, modeGoalType]
  | setAge v => apply Inv_recompute; exact h1
  | setSex v => apply Inv_recompute; exact h1
  | setHeight v => apply Inv_recompute; exact h1
  | setWeight v => apply Inv_recompute; exact h1
  | setActivityLevel v => apply Inv_recompute; exact h1
  | setWeightGoal v => apply Inv_recompute; exact h1
  | setManualGoal str =>
      rcases hmode : p.mode with _ | _
      · refine ⟨?_, ?_⟩
        · simp only [step, handlerStore, applyEvent, hmode]
          simp
        · intro hadv
          simp only [step, applyEvent] at hadv
          rw [hmode] at hadv
          cases hadv
      · refine ⟨?_, ?_⟩
        · simp only [step, handlerStore, applyEvent, hmode]
          rw [hmode] at h1
          simpa using h1
        · intro _
          simp only [step, handlerStore, applyEvent, hmode]
          exact (h2 hmode).trans rfl

theorem Inv_runEvents (es : List Event) : Inv (runEvents es) := by
  have hgen : ∀ (l : List Event) (s : ProfileState × Store),
      Inv s → Inv (l.foldl step s) := by
    intro l
    induction l with
    | nil => intro s hs; exact hs
    | cons e t ih => intro s hs; exact ih _ (Inv_step s e hs)
  refine hgen es initState ⟨by simp [initState], ?_⟩
  intro hadv
  cases hadv

/-- C1 counterexample: from a fresh install, the single reachable
interaction "switch to advanced mode" leaves mode = advanced with none of
the five biometric inputs present, yet the persisted activeGoalType is
'calculated' (and the calculated goal is absent), where the claim
requires activeGoalType to revert to 'manual'. -/
theorem activeGoalType_claim_fails :
    (runEvents [Event.setMode ProfileMode.advanced]).1.mode = ProfileMode.advanced
    ∧ bioComplete (runEvents [Event.setMode ProfileMode.advanced]).1.bio = false
    ∧ (runEvents [Event.setMode ProfileMode.advanced]).2.activeGoalType
        = some "calculated"
    ∧ (runEvents [Event.setMode ProfileMode.advanced]).2.calculatedGoal = none
    ∧ ¬ (runEvents [Event.setMode ProfileMode.advanced]).2.activeGoalType
        = some "manual" := by
  refine ⟨rfl, rfl, rfl, rfl, ?_⟩
  intro hc
  exact absurd (Option.some.inj hc) (by decide)

/-- C1 amended: for every sequence of interactions from a fresh install,
the persisted activeGoalType is 'calculated' exactly while mode =
'advanced' — a switch to advanced sets it immediately even when the five
biometric inputs are not all present, and a failed recompute (incomplete
inputs or non-positive total) clears only calculatedGoal, never reverting
activeGoalType to 'manual'.  In advanced mode the persisted
calculatedGoal always equals the fresh recomputation from the current
inputs (absent when incomplete or non-positive), so no stale calculated
value is ever persisted, though activeGoalType may point at a missing
one. -/
theorem goalType_tracks_mode (es : List Event) :
    ((runEvents es).2.activeGoalType = some "calculated"
      ↔ (runEvents es).1.mode = ProfileMode.advanced)
    ∧ ((runEvents es).1.mode = ProfileMode.advanced →
        (runEvents es).2.calculatedGoal = resolvedGoal (runEvents es).1) :=
  Inv_runEvents es

/-- Witness for the amended C1 at the one-event trace switching to
advanced mode: the persisted calculated goal matches the fresh
recomputation (both absent). -/
theorem goalType_tracks_mode_witness :
    (runEvents [Event.setMode ProfileMode.advanced]).2.calculatedGoal
      = resolvedGoal (runEvents [Event.setMode ProfileMode.advanced]).1 :=
  (goalType_tracks_mode [Event.setMode ProfileMode.advanced]).2 rfl

theorem recompute_complete (a : ℤ) (sx : Sex) (hh : ℤ) (w : ℚ)
    (al : ActivityLevel) (delta : ℚ) (mg : String) (st : Store) :
    recompute ⟨ProfileMode.advanced, ⟨some a, some sx, some hh, some w, some al⟩,
        delta, mg⟩ st
      = if advancedTotal a sx hh w al delta > 0 then
          { activeGoalType := some "calculated",
            calculatedGoal := some (advancedTotal a sx hh w al delta) }
        else
          { activeGoalType := st.activeGoalType, calculatedGoal := none } := rfl

/-- C3: in advanced mode with age 30, sex male, height 180, weight 80,
moderate activity and weekly goal 0, the resolver computes
BMR = 88.362 + 13.397*80 + 4.799*180 - 5.677*30 = 1853.632,
TDEE = 1853.632 * 1.55 = 2873.1296, and for any prior store contents the
recompute effect persists calculatedGoal = round(TDEE + 0) = 2873 with
activeGoalType = 'calculated'. -/
theorem advanced_example_2873 :
    bmr Sex.male 80 180 30 = 1853.632
    ∧ bmr Sex.male 80 180 30 * activityFactor ActivityLevel.moderate = 2873.1296
    ∧ advancedTotal 30 Sex.male 180 80 ActivityLevel.moderate 0 = 2873
    ∧ ∀ st : Store,
        recompute ⟨ProfileMode.advanced,
            ⟨some 30, some Sex.male, some 180, some 80,
             some ActivityLevel.moderate⟩, 0, "2000"⟩ st
          = { activeGoalType := some "calculated", calculatedGoal := some 2873 } := by
  have hb : bmr Sex.male 80 180 30 = 1853.632 := by
    unfold bmr
    norm_num
  have ht : advancedTotal 30 Sex.male 180 80 ActivityLevel.moderate 0 = 2873 := by
    unfold advancedTotal activityFactor jsRound
    rw [hb]
    norm_num [Int.floor_eq_iff]
  refine ⟨hb, ?_, ht, ?_⟩
  · rw [hb]
    unfold activityFactor
    norm_num
  · intro st
    rw [recompute_complete, if_pos (by rw [ht]; norm_num), ht]

/-- C6 counterexample: a reachable trace (switch to advanced, fill sex,
height 0, weight 0, sedentary, then age 999) reaches mode = advanced with
all five inputs valid and total = round((88.362 - 5.677*999)*1.2) =
-6700 ≤ 0; the effect clears calculatedGoal but the persisted
activeGoalType stays 'calculated' instead of reverting to
not-calculated. -/
theorem total_floor_keeps_goalType :
    advancedTotal 999 Sex.male 0 0 ActivityLevel.sedentary 0 = -6700
    ∧ (runEvents [Event.setMode ProfileMode.advanced, Event.setSex (some Sex.male),
          Event.setHeight (some 0), Event.setWeight (some 0),
          Event.setActivityLevel (some ActivityLevel.sedentary),
          Event.setAge (some 999)]).1
        = ⟨ProfileMode.advanced,
           ⟨some 999, some Sex.male, some 0, some 0, some ActivityLevel.sedentary⟩,
           0, "2000"⟩
    ∧ (runEvents [Event.setMode ProfileMode.advanced, Event.setSex (some Sex.male),
          Event.setHeight (some 0), Event.setWeight (some 0),
          Event.setActivityLevel (some ActivityLevel.sedentary),
          Event.setAge (some 999)]).2
        = { activeGoalType := some "calculated", calculatedGoal := none } := by
  have ht : advancedTotal 999 Sex.male 0 0 ActivityLevel.sedentary 0 = -6700 := by
    unfold advancedTotal bmr activityFactor jsRound
    norm_num [Int.floor_eq_iff]
  refine ⟨ht, rfl, ?_⟩
  have hsplit :
      (runEvents [Event.setMode ProfileMode.advanced, Event.setSex (some Sex.male),
          Event.setHeight (some 0), Event.setWeight (some 0),
          Event.setActivityLevel (some ActivityLevel.sedentary),
          Event.setAge (some 999)])
        = step (runEvents [Event.setMode ProfileMode.advanced,
            Event.setSex (some Sex.male), Event.setHeight (some 0),
            Event.setWeight (some 0),
            Event.setActivityLevel (some ActivityLevel.sedentary)])
            (Event.setAge (some 999)) := rfl
  have h5 :
      (runEvents [Event.setMode ProfileMode.advanced, Event.setSex (some Sex.male),
          Event.setHeight (some 0), Event.setWeight (some 0),
          Event.setActivityLevel (some ActivityLevel.sedentary)])
        = (⟨ProfileMode.advanced,
            ⟨none, some Sex.male, some 0, some 0, some ActivityLevel.sedentary⟩,
            0, "2000"⟩,
           { activeGoalType := some "calculated", calculatedGoal := none }) := rfl
  rw [hsplit, h5]
  simp only [step, applyEvent, handlerStore]
  rw [recompute_complete, if_neg (by rw [ht]; norm_num)]

/-- C6 amended: in advanced mode with all five inputs valid, when
total = round(TDEE + weeklyAdjustment) ≤ 0 the recompute effect clears
calculatedGoal (no value persisted) but leaves the persisted
activeGoalType unchanged (the screen shows the calculated goal as
incomplete); when total > 0 it persists the total as calculatedGoal and
sets activeGoalType = 'calculated'. -/
theorem recompute_total_branches (a : ℤ) (sx : Sex) (hh : ℤ) (w : ℚ)
    (al : ActivityLevel) (delta : ℚ) (mg : String) (st : Store) :
    (advancedTotal a sx hh w al delta ≤ 0 →
      recompute ⟨ProfileMode.advanced, ⟨some a, some sx, some hh, some w, some al⟩,
          delta, mg⟩ st
        = { activeGoalType := st.activeGoalType, calculatedGoal := none })
    ∧ (0 < advancedTotal a sx hh w al delta →
      recompute ⟨ProfileMode.advanced, ⟨some a, some sx, some hh, some w, some al⟩,
          delta, mg⟩ st
        = { activeGoalType := some "calculated",
            calculatedGoal := some (advancedTotal a sx hh w al delta) }) := by
  constructor
  · intro h
    rw [recompute_complete, if_neg (not_lt.mpr h)]
  · intro h
    rw [recompute_complete, if_pos h]

/-- Witness for the amended C6: with female sex, age 999, height 0,
weight 0, sedentary, the total is negative and the effect only clears the
calculated goal, leaving activeGoalType as it was. -/
theorem recompute_total_branches_witness :
    recompute ⟨ProfileMode.advanced,
        ⟨some 999, some Sex.female, some 0, some 0, some ActivityLevel.sedentary⟩,
        0, "1800"⟩
      { activeGoalType := some "calculated", calculatedGoal := some 2873 }
      = { activeGoalType := some "calculated", calculatedGoal := none } :=
  (recompute_total_branches 999 Sex.female 0 0 ActivityLevel.sedentary 0 "1800"
      { activeGoalType := some "calculated", calculatedGoal := some 2873 }).1
    (by unfold advancedTotal bmr activityFactor jsRound
        norm_num [Int.floor_eq_iff])

/-! ### DayAggregator lemmas -/

theorem lookupEntries_insertEntry_self (gs : List DayGroup) (k : String) (e : Entry) :
    lookupEntries (insertEntry gs k e) k = lookupEntries gs k ++ [e] := by
  induction gs with
  | nil => simp [insertEntry, lookupEntries]
  | cons g rest ih =>
      by_cases hg : g.1 = k
      · simp [insertEntry, lookupEntries, hg]
      · simp [insertEntry, lookupEntries, hg, ih]

theorem lookupEntries_insertEntry_ne (gs : List DayGroup) (k k' : String) (e : Entry)
    (h : k' ≠ k) :
    lookupEntries (insertEntry gs k e) k' = lookupEntries gs k' := by
  have h2 : ¬ k = k' := fun hc => h hc.symm
  induction gs with
  | nil => simp [insertEntry, lookupEntries, h2]
  | cons g rest ih =>
      by_cases hg : g.1 = k
      · have hne : ¬ g.1 = k' := by rw [hg]; exact h2
        simp [insertEntry, lookupEntries, hg, h2, hne]
      · by_cases hg' : g.1 = k'
        · simp [insertEntry, lookupEntries, hg, hg', h]
        · simp [insertEntry, lookupEntries, hg, hg', ih]

theorem lookupTotal_insertEntry_self (gs : List DayGroup) (k : String) (e : Entry) :
    lookupTotal (insertEntry gs k e) k = lookupTotal gs k + calculateCalories e := by
  induction gs with
  | nil => simp [insertEntry, lookupTotal]
  | cons g rest ih =>
      by_cases hg : g.1 = k
      · simp [insertEntry, lookupTotal, hg]
      · simp [insertEntry, lookupTotal, hg, ih]

theorem lookupTotal_insertEntry_ne (gs : List DayGroup) (k k' : String) (e : Entry)
    (h : k' ≠ k) :
    lookupTotal (insertEntry gs k e) k' = lookupTotal gs k' := by
  have h2 : ¬ k = k' := fun hc => h hc.symm
  induction gs with
  | nil => simp [insertEntry, lookupTotal, h2]
  | cons g rest ih =>
      by_cases hg : g.1 = k
      · have hne : ¬ g.1 = k' := by rw [hg]; exact h2
        simp [insertEntry, lookupTotal, hg, h2, hne]
      · by_cases hg' : g.1 = k'
        · simp [insertEntry, lookupTotal, hg, hg', h]
        · simp [insertEntry, lookupTotal, hg, hg', ih]

theorem keys_insertEntry (gs : List DayGroup) (k : String) (e : Entry) :
    (insertEntry gs k e).map Prod.fst
      = if k ∈ gs.map Prod.fst then gs.map Prod.fst
        else gs.map Prod.fst ++ [k] := by
  induction gs with
  | nil => simp [insertEntry]
  | cons g rest ih =>
      by_cases hg : g.1 = k
      · have hmem : k ∈ (g :: rest).map Prod.fst := by
          rw [List.map_cons, List.mem_cons]
          exact Or.inl hg.symm
        simp [insertEntry, hg, hmem]
      · have hcond : k ∈ (g :: rest).map Prod.fst ↔ k ∈ rest.map Prod.fst := by
          rw [List.map_cons, List.mem_cons]
          constructor
          · rintro (h1 | h1)
            · exact absurd h1.symm hg
            · exact h1
          · exact Or.inr
        have hg2 : ¬ k = g.1 := fun hc => hg hc.symm
        by_cases hmem : k ∈ rest.map Prod.fst
        · simp [insertEntry, hg, hg2, ih, hmem, hcond]
        · simp [insertEntry, hg, hg2, ih, hmem, hcond]

theorem mem_keys_insertEntry (gs : List DayGroup) (k x : String) (e : Entry) :
    x ∈ (insertEntry gs k e).map Prod.fst ↔ x ∈ gs.map Prod.fst ∨ x = k := by
  rw [keys_insertEntry]
  by_cases hmem : k ∈ gs.map Prod.fst
  · rw [if_pos hmem]
    constructor
    · exact Or.inl
    · rintro (h1 | rfl)
      · exact h1
      · exact hmem
  · rw [if_neg hmem]
    simp [List.mem_append]

theorem nodup_keys_insertEntry (gs : List DayGroup) (k : String) (e : Entry)
    (h : (gs.map Prod.fst).Nodup) :
    ((insertEntry gs k e).map Prod.fst).Nodup := by
  rw [keys_insertEntry]
  by_cases hmem : k ∈ gs.map Prod.fst
  · rw [if_pos hmem]
    exact h
  · rw [if_neg hmem]
    rw [List.nodup_append]
    refine ⟨h, List.nodup_singleton k, ?_⟩
    intro x hx hxk
    rw [List.mem_singleton] at hxk
    subst hxk
    exact hmem hx

theorem lookupEntries_foldl (l : List Entry) :
    ∀ (gs : List DayGroup) (k : String),
      lookupEntries (l.foldl (fun gs e => insertEntry gs (dateString e) e) gs) k
        = lookupEntries gs k ++ l.filter (fun e => decide (dateString e = k)) := by
  induction l with
  | nil => intro gs k; simp
  | cons e t ih =>
      intro gs k
      rw [List.foldl_cons]
      by_cases hk : dateString e = k
      · subst hk
        rw [ih, lookupEntries_insertEntry_self,
          List.filter_cons_of_pos (by simp), List.append_assoc]
        rfl
      · rw [ih, lookupEntries_insertEntry_ne _ _ _ _ (fun hc => hk hc.symm),
          List.filter_cons_of_neg (by simp [hk])]

theorem lookupEntries_buildGroups (l : List Entry) (k : String) :
    lookupEntries (buildGroups l) k = l.filter (fun e => decide (dateString e = k)) := by
  have h := lookupEntries_foldl l [] k
  simpa [buildGroups, lookupEntries] using h

theorem lookupTotal_foldl (l : List Entry) :
    ∀ (gs : List DayGroup) (k : String),
      lookupTotal (l.foldl (fun gs e => insertEntry gs (dateString e) e) gs) k
        = lookupTotal gs k
          + ((l.filter (fun e => decide (dateString e = k))).map calculateCalories).sum := by
  induction l with
  | nil => intro gs k; simp
  | cons e t ih =>
      intro gs k
      rw [List.foldl_cons]
      by_cases hk : dateString e = k
      · subst hk
        rw [ih, lookupTotal_insertEntry_self, List.filter_cons_of_pos (by simp),
          List.map_cons, List.sum_cons]
        ring
      · rw [ih, lookupTotal_insertEntry_ne _ _ _ _ (fun hc => hk hc.symm),
          List.filter_cons_of_neg (by simp [hk])]

theorem lookupTotal_buildGroups (l : List Entry) (k : String) :
    lookupTotal (buildGroups l) k
      = ((l.filter (fun e => decide (dateString e = k))).map calculateCalories).sum := by
  have h := lookupTotal_foldl l [] k
  simpa [buildGroups, lookupTotal] using h

theorem keys_foldl_mono (l : List Entry) :
    ∀ (gs : List DayGroup) (x : String), x ∈ gs.map Prod.fst →
      x ∈ (l.foldl (fun gs e => insertEntry gs (dateString e) e) gs).map Prod.fst := by
  induction l with
  | nil => intro gs x hx; simpa using hx
  | cons e t ih =>
      intro gs x hx
      rw [List.foldl_cons]
      exact ih _ x ((mem_keys_insertEntry _ _ _ _).mpr (Or.inl hx))

theorem dateString_mem_keys_foldl (l : List Entry) :
    ∀ (gs : List DayGroup) (e : Entry), e ∈ l →
      dateString e ∈ (l.foldl (fun gs e => insertEntry gs (dateString e) e) gs).map Prod.fst := by
  induction l with
  | nil => intro gs e he; cases he
  | cons a t ih =>
      intro gs e he
      rw [List.foldl_cons]
      rcases List.mem_cons.mp he with rfl | ht
      · exact keys_foldl_mono t _ _ ((mem_keys_insertEntry _ _ _ _).mpr (Or.inr rfl))
      · exact ih _ e ht

theorem dateString_mem_keys (l : List Entry) (e : Entry) (he : e ∈ l) :
    dateString e ∈ (buildGroups l).map Prod.fst :=
  dateString_mem_keys_foldl l [] e he

theorem nodup_keys_foldl (l : List Entry) :
    ∀ gs : List DayGroup, (gs.map Prod.fst).Nodup →
      ((l.foldl (fun gs e => insertEntry gs (dateString e) e) gs).map Prod.fst).Nodup := by
  induction l with
  | nil => intro gs h; simpa using h
  | cons e t ih =>
      intro gs h
      rw [List.foldl_cons]
      exact ih _ (nodup_keys_insertEntry _ _ _ h)

theorem nodup_keys_buildGroups (l : List Entry) :
    ((buildGroups l).map Prod.fst).Nodup :=
  nodup_keys_foldl l [] (by simp)

theorem flatten_filter_perm :
    ∀ (ks : List String) (l : List Entry), ks.Nodup →
      (∀ e ∈ l, dateString e ∈ ks) →
      ((ks.map (fun k => l.filter (fun e => decide (dateString e = k)))).flatten).Perm l := by
  intro ks
  induction ks with
  | nil =>
      intro l _ hcov
      cases l with
      | nil => simp
      | cons e t => exact absurd (hcov e (List.mem_cons_self e t)) (List.not_mem_nil _)
  | cons k ks ih =>
      intro l hnd hcov
      rw [List.nodup_cons] at hnd
      obtain ⟨hknot, hnd⟩ := hnd
      rw [List.map_cons, List.flatten_cons]
      have hmap : ks.map (fun q => l.filter (fun e => decide (dateString e = q)))
          = ks.map (fun q => (l.filter (fun e => !decide (dateString e = k))).filter
              (fun e => decide (dateString e = q))) := by
        apply List.map_congr_left
        intro q hq
        rw [List.filter_filter]
        apply List.filter_congr
        intro e _
        by_cases hek : dateString e = k
        · by_cases heq : dateString e = q
          · exfalso
            apply hknot
            rw [← heq, hek] at hq
            exact hq
          · simp [heq]
        · simp [hek]
      rw [hmap]
      have hcov' : ∀ e ∈ l.filter (fun e => !decide (dateString e = k)),
          dateString e ∈ ks := by
        intro e he
        rw [List.mem_filter] at he
        obtain ⟨hel, hpred⟩ := he
        have hmem := hcov e hel
        rw [List.mem_cons] at hmem
        rcases hmem with h1 | h2
        · simp [h1] at hpred
        · exact h2
      have hperm := ih (l.filter (fun e => !decide (dateString e = k))) hnd hcov'
      exact (List.Perm.append_left _ hperm).trans
        (List.filter_append_perm (fun e => decide (dateString e = k)) l)

theorem flatten_map_perm {α β : Type _} (ks : List α) (f g : α → List β)
    (h : ∀ k ∈ ks, (f k).Perm (g k)) :
    ((ks.map f).flatten).Perm ((ks.map g).flatten) := by
  induction ks with
  | nil => simp
  | cons k t ih =>
      rw [List.map_cons, List.map_cons, List.flatten_cons, List.flatten_cons]
      exact List.Perm.append (h k (List.mem_cons_self k t))
        (ih fun q hq => h q (List.mem_cons_of_mem k hq))

theorem processEntries_eq (l : List Entry) :
    processEntries l
      = (sortKeysDesc ((buildGroups l).map Prod.fst)).map
          (fun k =>
            { date := k,
              entries := sortEntriesDesc (lookupEntries (buildGroups l) k),
              totalCalories := lookupTotal (buildGroups l) k }) := by
  cases l with
  | nil => simp [processEntries, buildGroups, sortKeysDesc, List.mergeSort_nil]
  | cons e t => rfl

theorem sortKeysDesc_nodup (ks : List String) (h : ks.Nodup) :
    (sortKeysDesc ks).Nodup :=
  (List.mergeSort_perm ks _).symm.nodup h

theorem sortKeysDesc_sorted (ks : List String) :
    List.Pairwise (fun a b : String => b ≤ a) (sortKeysDesc ks) := by
  refine List.Pairwise.imp (fun hab => of_decide_eq_true hab)
    (List.sorted_mergeSort ?_ ?_ ks)
  · intro a b c h1 h2
    simp only [decide_eq_true_eq] at h1 h2 ⊢
    exact le_trans h2 h1
  · intro a b
    rcases le_total a b with h | h <;> simp [h]

theorem sortEntriesDesc_sorted (es : List Entry) :
    List.Pairwise (fun a b : Entry => b.createdAt ≤ a.createdAt) (sortEntriesDesc es) := by
  refine List.Pairwise.imp (fun hab => of_decide_eq_true hab)
    (List.sorted_mergeSort ?_ ?_ es)
  · intro a b c h1 h2
    simp only [decide_eq_true_eq] at h1 h2 ⊢
    exact le_trans h2 h1
  · intro a b
    rcases le_total a.createdAt b.createdAt with h | h <;> simp [h]

theorem sortEntriesDesc_perm (es : List Entry) : (sortEntriesDesc es).Perm es :=
  List.mergeSort_perm es _

theorem sortKeysDesc_perm (ks : List String) : (sortKeysDesc ks).Perm ks :=
  List.mergeSort_perm ks _

/-- C2: for every list of entries, the sum of bucket.totalCalories over
all buckets of processEntries equals the sum of calculateCalories over
the input entries (conservation of total), and each bucket's total
equals an independent per-entry recomputation over that bucket's
entries. -/
theorem processEntries_conservation (l : List Entry) :
    ((processEntries l).map DailyData.totalCalories).sum
      = (l.map calculateCalories).sum
    ∧ ∀ b ∈ processEntries l,
        b.totalCalories = (b.entries.map calculateCalories).sum := by
  have hks : (sortKeysDesc ((buildGroups l).map Prod.fst)).Nodup :=
    sortKeysDesc_nodup _ (nodup_keys_buildGroups l)
  have hcov : ∀ e ∈ l, dateString e ∈ sortKeysDesc ((buildGroups l).map Prod.fst) := by
    intro e he
    unfold sortKeysDesc
    rw [List.mem_mergeSort]
    exact dateString_mem_keys l e he
  have hperm := flatten_filter_perm (sortKeysDesc ((buildGroups l).map Prod.fst)) l hks hcov
  constructor
  · rw [processEntries_eq, List.map_map]
    have hstep1 : ((sortKeysDesc ((buildGroups l).map Prod.fst)).map
          (DailyData.totalCalories ∘ fun k =>
            { date := k,
              entries := sortEntriesDesc (lookupEntries (buildGroups l) k),
              totalCalories := lookupTotal (buildGroups l) k })).sum
        = ((sortKeysDesc ((buildGroups l).map Prod.fst)).map
            (fun k => ((l.filter (fun e => decide (dateString e = k))).map
              calculateCalories).sum)).sum := by
      apply congrArg
      apply List.map_congr_left
      intro k _
      exact lookupTotal_buildGroups l k
    rw [hstep1]
    have hstep2 : ((sortKeysDesc ((buildGroups l).map Prod.fst)).map
          (fun k => ((l.filter (fun e => decide (dateString e = k))).map
            calculateCalories).sum)).sum
        = (((sortKeysDesc ((buildGroups l).map Prod.fst)).map
            (fun k => (l.filter (fun e => decide (dateString e = k))).map
              calculateCalories)).flatten).sum := by
      rw [List.sum_flatten, List.map_map]
      rfl
    rw [hstep2]
    have hstep3 : ((sortKeysDesc ((buildGroups l).map Prod.fst)).map
          (fun k => (l.filter (fun e => decide (dateString e = k))).map
            calculateCalories)).flatten
        = (((sortKeysDesc ((buildGroups l).map Prod.fst)).map
            (fun k => l.filter (fun e => decide (dateString e = k)))).flatten).map
              calculateCalories := by
      rw [List.map_flatten, List.map_map]
      rfl
    rw [hstep3]
    exact (hperm.map calculateCalories).sum_eq
  · intro b hb
    rw [processEntries_eq] at hb
    obtain ⟨k, hk, rfl⟩ := List.mem_map.mp hb
    show lookupTotal (buildGroups l) k
        = ((sortEntriesDesc (lookupEntries (buildGroups l) k)).map calculateCalories).sum
    rw [lookupTotal_buildGroups, lookupEntries_buildGroups]
    exact ((sortEntriesDesc_perm _).map calculateCalories).sum_eq.symm

/-- Witness for C2 at the one-entry list (calories_per_100_g = 0, so the
aggregate is kernel-computable): the single bucket's total equals the
per-entry recomputation over its entries. -/
theorem processEntries_conservation_witness :
    ({ date := "1970-01-01", entries := [appleEntry],
       totalCalories := 0 } : DailyData).totalCalories
      = (({ date := "1970-01-01", entries := [appleEntry],
            totalCalories := 0 } : DailyData).entries.map calculateCalories).sum := by
  have hpe : processEntries [appleEntry]
      = [{ date := "1970-01-01", entries := [appleEntry], totalCalories := 0 }] := by
    rw [processEntries_eq]
    rw [show buildGroups [appleEntry]
        = [("1970-01-01", [appleEntry], (0:ℤ))] from rfl]
    simp [sortKeysDesc, sortEntriesDesc, lookupEntries, lookupTotal,
      List.mergeSort_singleton]
  exact (processEntries_conservation _).2 _
    (by rw [hpe]; exact List.mem_singleton.mpr rfl)

/-- C7: processEntries returns the buckets sorted strictly descending by
their date key (lexicographically on the fixed-width zero-padded
YYYY-MM-DD string, hence most recent day first), and within each bucket
the entries sorted descending by createdAt (most recent first). -/
theorem processEntries_sorted (l : List Entry) :
    List.Pairwise (fun b1 b2 => b2.date < b1.date) (processEntries l)
    ∧ ∀ b ∈ processEntries l,
        List.Pairwise (fun e1 e2 => e2.createdAt ≤ e1.createdAt) b.entries := by
  constructor
  · rw [processEntries_eq, List.pairwise_map]
    have hs := sortKeysDesc_sorted ((buildGroups l).map Prod.fst)
    have hnd : (sortKeysDesc ((buildGroups l).map Prod.fst)).Nodup :=
      sortKeysDesc_nodup _ (nodup_keys_buildGroups l)
    exact (hs.and hnd).imp (fun hab => lt_of_le_of_ne hab.1 (Ne.symm hab.2))
  · intro b hb
    rw [processEntries_eq] at hb
    obtain ⟨k, hk, rfl⟩ := List.mem_map.mp hb
    exact sortEntriesDesc_sorted _

/-- Witness for C7 at a one-entry list: the single bucket's entry list
is (trivially) sorted descending by createdAt. -/
theorem processEntries_sorted_witness :
    List.Pairwise (fun e1 e2 : Entry => e2.createdAt ≤ e1.createdAt)
      ({ date := "1970-01-02", entries := [pearEntry],
         totalCalories := 0 } : DailyData).entries := by
  have hpe : processEntries [pearEntry]
      = [{ date := "1970-01-02", entries := [pearEntry], totalCalories := 0 }] := by
    rw [processEntries_eq]
    rw [show buildGroups [pearEntry]
        = [("1970-01-02", [pearEntry], (0:ℤ))] from rfl]
    simp [sortKeysDesc, sortEntriesDesc, lookupEntries, lookupTotal,
      List.mergeSort_singleton]
  exact (processEntries_sorted _).2 _
    (by rw [hpe]; exact List.mem_singleton.mpr rfl)

/-- C10: processEntries partitions its input — the concatenation of all
bucket entry lists is a permutation of the input (no entry dropped or
duplicated), every entry sits in the bucket whose date equals its day
key dateString (the YYYY-MM-DD prefix of toISOString, i.e. the UTC
calendar date of createdAt, as the concrete anchor conjunct shows for a
22:13 UTC timestamp), and bucket dates are pairwise distinct, so each
entry appears in exactly one bucket. -/
theorem processEntries_partition (l : List Entry) :
    (((processEntries l).map DailyData.entries).flatten).Perm l
    ∧ (∀ b ∈ processEntries l, ∀ e ∈ b.entries, dateString e = b.date)
    ∧ List.Pairwise (fun b1 b2 => b1.date ≠ b2.date) (processEntries l)
    ∧ isoDayKey 1700000000000 = "2023-11-14" := by
  have hks : (sortKeysDesc ((buildGroups l).map Prod.fst)).Nodup :=
    sortKeysDesc_nodup _ (nodup_keys_buildGroups l)
  have hcov : ∀ e ∈ l, dateString e ∈ sortKeysDesc ((buildGroups l).map Prod.fst) := by
    intro e he
    unfold sortKeysDesc
    rw [List.mem_mergeSort]
    exact dateString_mem_keys l e he
  refine ⟨?_, ?_, ?_, rfl⟩
  · rw [processEntries_eq, List.map_map]
    have hstep1 : ((sortKeysDesc ((buildGroups l).map Prod.fst)).map
          (DailyData.entries ∘ fun k =>
            { date := k,
              entries := sortEntriesDesc (lookupEntries (buildGroups l) k),
              totalCalories := lookupTotal (buildGroups l) k })).flatten
        = ((sortKeysDesc ((buildGroups l).map Prod.fst)).map
            (fun k => sortEntriesDesc (l.filter (fun e => decide (dateString e = k))))).flatten := by
      apply congrArg
      apply List.map_congr_left
      intro k _
      show sortEntriesDesc (lookupEntries (buildGroups l) k) = _
      rw [lookupEntries_buildGroups]
    rw [hstep1]
    refine List.Perm.trans ?_ (flatten_filter_perm _ l hks hcov)
    exact flatten_map_perm _ _ _ (fun k _ => sortEntriesDesc_perm _)
  · intro b hb e he
    rw [processEntries_eq] at hb
    obtain ⟨k, hk, rfl⟩ := List.mem_map.mp hb
    have he2 : e ∈ sortEntriesDesc (lookupEntries (buildGroups l) k) := he
    rw [sortEntriesDesc, List.mem_mergeSort, lookupEntries_buildGroups,
      List.mem_filter] at he2
    exact of_decide_eq_true he2.2
  · rw [processEntries_eq, List.pairwise_map]
    have hnd : (sortKeysDesc ((buildGroups l).map Prod.fst)).Nodup :=
      sortKeysDesc_nodup _ (nodup_keys_buildGroups l)
    exact hnd.imp (fun hab => hab)

/-- Witness for C10 at a one-entry list with createdAt =
1700000000000 ms (2023-11-14T22:13:20 UTC): the entry's day key equals
its bucket's date. -/
theorem processEntries_partition_witness :
    dateString kiwiEntry
      = ({ date := "2023-11-14", entries := [kiwiEntry],
           totalCalories := 0 } : DailyData).date := by
  have hpe : processEntries [kiwiEntry]
      = [{ date := "2023-11-14", entries := [kiwiEntry], totalCalories := 0 }] := by
    rw [processEntries_eq]
    rw [show buildGroups [kiwiEntry]
        = [("2023-11-14", [kiwiEntry], (0:ℤ))] from rfl]
    simp [sortKeysDesc, sortEntriesDesc, lookupEntries, lookupTotal,
      List.mergeSort_singleton]
  exact (processEntries_partition _).2.1 _
    (by rw [hpe]; exact List.mem_singleton.mpr rfl) _ (List.mem_singleton.mpr rfl)

end LetItCount
